import Mathlib

/-!
Verification of the dbt-meta metadata query tool, shallowly embedded from the
Python source (src/dbt_meta).  Pure functions are translated directly; the
effectful boundaries (filesystem, environment variables, the bq subprocess and
the git subprocess) are passed in as explicit parameters, so every definition
is executable on concrete inputs.
-/

namespace DbtMeta

/-! ## Basic data model

`MNode` mirrors the manifest node dictionaries as used by the embedded
commands; only the fields that the translated code actually reads are kept.
Python dict lookups `d.get(k, default)` on possibly-missing keys are modelled
with `Option` fields, and keys the source reads with a `''` default are plain
`String` fields.
-/

structure MConfig where
  /-- `config.get(..)` for the alias key, which may be absent. -/
  aliasOpt : Option String
deriving DecidableEq, Repr

structure MNode where
  unique_id : String
  name : String
  resource_type : String
  database : String
  schema : String
  /-- top-level alias entry of the node dict, read by the lineage code -/
  aliasOpt : Option String
  original_file_path : String
  config : MConfig
  /-- `model.get('columns', {})` as an ordered association list
      column name to `col_data.get('data_type')` -/
  columns : List (String × Option String)
deriving DecidableEq, Repr

/-- Structured warning objects as produced by the commands module. -/
structure Warning where
  type : String
  severity : String
  message : String
  detail : String
  suggestion : Option String
  source : Option String
deriving DecidableEq, Repr

structure ColumnOut where
  name : String
  data_type : String
deriving DecidableEq, Repr

/-- Boolean prefix test on character lists (executable and kernel-reducible,
unlike the position-based `String` primitives). -/
def listPrefixOf : List Char → List Char → Bool
  | [], _ => true
  | _ :: _, [] => false
  | a :: as, b :: bs => a == b && listPrefixOf as bs

/-- Boolean infix test on character lists. -/
def listInfixOf (pat : List Char) : List Char → Bool
  | [] => listPrefixOf pat []
  | b :: bs => listPrefixOf pat (b :: bs) || listInfixOf pat bs

/-- Python `pat in s` substring test. -/
def strContains (s pat : String) : Bool :=
  listInfixOf pat.toList s.toList

/-- Python `s.startswith(pat)`. -/
def strStartsWith (s pat : String) : Bool :=
  listPrefixOf pat.toList s.toList

/-- Python `s.endswith(pat)`. -/
def strEndsWith (s pat : String) : Bool :=
  listPrefixOf pat.toList.reverse s.toList.reverse

/-- Fuel-indexed worker for `splitOnStr`; the fuel is the input length, so it
never runs out.  Leftmost, non-overlapping occurrences of `sep` split the
list, exactly like Python `str.split(sep)` for a non-empty separator. -/
def splitOnListAux (sep : List Char) : Nat → List Char → List Char → List (List Char)
  | _, [], acc => [acc.reverse]
  | 0, l, acc => [acc.reverse ++ l]
  | fuel + 1, c :: cs, acc =>
    if listPrefixOf sep (c :: cs) then
      acc.reverse :: splitOnListAux sep fuel (List.drop (sep.length - 1) cs) []
    else
      splitOnListAux sep fuel cs (c :: acc)

/-- Python `s.split(sep)` for a non-empty separator. -/
def splitOnStr (s sep : String) : List String :=
  if sep == "" then [s]
  else (splitOnListAux sep.toList s.toList.length s.toList []).map String.mk

/-- Python `sep.join(parts)`. -/
def intercalateStr (sep : String) : List String → String
  | [] => ""
  | [a] => a
  | a :: rest => a ++ sep ++ intercalateStr sep rest

/-- Python `s.lower()` (character-wise). -/
def strToLower (s : String) : String :=
  String.mk (s.toList.map Char.toLower)

/-- Association-list lookup, the embedding of a Python `dict.get(k)`. -/
def lookupAssoc {α : Type} (l : List (String × α)) (k : String) : Option α :=
  (l.find? (fun p => p.1 == k)).map Prod.snd

/-- `relation_map.get(node_id, [])`. -/
def lookupRels (l : List (String × List String)) (k : String) : List String :=
  (lookupAssoc l k).getD []

/-- Last `.`-separated segment of a unique_id. -/
def lastDotSegment (s : String) : String :=
  (splitOnStr s ".").getLastD s

/-- Modelled from the spec: `ManifestParser.get_model` (the file
`manifest/parser.py` is not part of the source tree; only its callers are).
The spec defines it as lookup by unique_id suffix match: a model is identified
by the last `.`-delimited segment of its unique_id equaling `name`, returning
the first match. -/
def getModel (nodes : List (String × MNode)) (name : String) : Option MNode :=
  (nodes.find? (fun p => lastDotSegment p.1 == name)).map Prod.snd

/-- `os.environ.get(var, 'true').lower() in ('true', '1', 'yes')`, the
fallback-level enablement test used by every command. -/
def truthyEnv (v : Option String) : Bool :=
  let s := strToLower (v.getD "true")
  s == "true" || s == "1" || s == "yes"

/-- `_infer_table_parts` (commands.py): split a model name on the last `__`;
the first component is `None` when the name contains no `__`. -/
def inferTableParts (modelName : String) : Option String × String :=
  if (splitOnStr modelName "__").length == 1 then
    (none, modelName)
  else
    let parts := splitOnStr modelName "__"
    (some (intercalateStr "__" parts.dropLast), parts.getLastD modelName)

/-! ## ManifestFinder (manifest/finder.py)

The filesystem is a predicate `fs : String → Bool` (does this path exist),
the directory structure is an abstract `parentFn` (Path.parent), and
`Path.absolute` is the identity because paths are modelled as already
absolute strings.  Environment variables are `Option String`.
-/

def joinPath (a b : String) : String := a ++ "/" ++ b

/-- `ManifestFinder._search_upward`: walk up to 10 directory levels looking
first for `{prod_state_path}/manifest.json` then `target/manifest.json`,
stopping at the filesystem root (`parent == current`). -/
def searchUpward (fs : String → Bool) (parentFn : String → String)
    (prodStatePath : String) : Nat → String → Option String
  | 0, _ => none
  | n + 1, current =>
    if fs (joinPath (joinPath current prodStatePath) "manifest.json") then
      some (joinPath (joinPath current prodStatePath) "manifest.json")
    else if fs (joinPath (joinPath current "target") "manifest.json") then
      some (joinPath (joinPath current "target") "manifest.json")
    else
      let parent := parentFn current
      if parent == current then none
      else searchUpward fs parentFn prodStatePath n parent

/-- `ManifestFinder.find`: the 8-level priority search.  Returns the found
path or the aggregated not-found error message. -/
def manifestFinderFind (fs : String → Bool) (parentFn : String → String)
    (cwd : String) (envManifestPath envProdStatePath envProjectPath : Option String) :
    Except String String :=
  let prodStatePath := envProdStatePath.getD ".dbt-state"
  let projectPath := envProjectPath
  -- Priority 1: DBT_MANIFEST_PATH environment variable
  -- (`if env_path := os.getenv(...)`: an empty value is falsy; a set value
  -- that does not exist on disk falls through to the remaining priorities)
  if (envManifestPath.getD "") != "" && fs ((envManifestPath.getD "")) then
    Except.ok (envManifestPath.getD "")
  -- Priority 2: ./{prod_state_path}/manifest.json
  else if fs (joinPath (joinPath cwd prodStatePath) "manifest.json") then
    Except.ok (joinPath (joinPath cwd prodStatePath) "manifest.json")
  -- Priority 3: ./target/manifest.json
  else if fs (joinPath (joinPath cwd "target") "manifest.json") then
    Except.ok (joinPath (joinPath cwd "target") "manifest.json")
  -- Priority 4: $DBT_PROJECT_PATH/{prod_state_path}/manifest.json
  else if (projectPath.getD "") != "" &&
      fs (joinPath (joinPath (projectPath.getD "") prodStatePath) "manifest.json") then
    Except.ok (joinPath (joinPath (projectPath.getD "") prodStatePath) "manifest.json")
  -- Priority 5: $DBT_PROJECT_PATH/target/manifest.json
  else if (projectPath.getD "") != "" &&
      fs (joinPath (joinPath (projectPath.getD "") "target") "manifest.json") then
    Except.ok (joinPath (joinPath (projectPath.getD "") "target") "manifest.json")
  else
    -- Priority 6-7: search upward
    match searchUpward fs parentFn prodStatePath 10 cwd with
    | some p => Except.ok p
    | none =>
      -- Priority 8: relative target/manifest.json fallback
      if fs "target/manifest.json" then Except.ok "target/manifest.json"
      else
        Except.error
          ("No manifest.json found. Searched:\n" ++
           "  1. DBT_MANIFEST_PATH environment variable\n" ++
           "  2. ./" ++ prodStatePath ++ "/manifest.json (production)\n" ++
           "  3. ./target/manifest.json (dev)\n" ++
           "  4. " ++ projectPath.getD "None" ++ "/" ++ prodStatePath ++
             "/manifest.json (if DBT_PROJECT_PATH set)\n" ++
           "  5. " ++ projectPath.getD "None" ++
             "/target/manifest.json (if DBT_PROJECT_PATH set)\n" ++
           "  6. Parent directories for " ++ prodStatePath ++ "/manifest.json\n" ++
           "  7. Parent directories for target/manifest.json\n" ++
           "  8. ./target/manifest.json (fallback)\n" ++
           "\n" ++
           "Make sure you have run dbt compile or dbt parse to generate manifest.json\n" ++
           "Production manifest directory: " ++ prodStatePath ++
           " (configure via DBT_PROD_STATE_PATH)")

/-- Concrete filesystem for the C3 counterexample: only the development
default `/proj/target/manifest.json` exists; the explicit override path
`/missing/manifest.json` does not. -/
def c3Fs (p : String) : Bool := p == "/proj/target/manifest.json"

def c3Parent (p : String) : String := if p == "/" then "/" else "/"

/-! ## Change detection (is_modified, commands.py lines 37-88 and
utils/git.py lines 87-149)

Each `subprocess.run` call is modelled by a `SubprocResult`: either a
completed process (return code plus stdout split into lines) or `fail`, which
stands for any raised exception (`TimeoutExpired`, `FileNotFoundError`, ...)
that the Python code catches by returning `False`.
-/

inductive SubprocResult where
  | ok (returncode : Int) (lines : List String)
  | fail
deriving DecidableEq, Repr

def subprocLines : SubprocResult → List String
  | SubprocResult.ok _ ls => ls
  | SubprocResult.fail => []

/-- `is_modified` from commands.py: `table in file_path` is a plain substring
test on the diff output, and on the `??` / `A ` status lines. -/
def commandsIsModified (modelName : String) (diff statusR : SubprocResult) : Bool :=
  let table := (inferTableParts modelName).2
  match diff with
  | SubprocResult.fail => false
  | SubprocResult.ok rc lines =>
    if rc == 0 && lines.any (fun fp => strContains fp table && strEndsWith fp ".sql") then
      true
    else
      match statusR with
      | SubprocResult.fail => false
      | SubprocResult.ok rc2 lines2 =>
        rc2 == 0 && lines2.any (fun line =>
          (strStartsWith line "??" || strStartsWith line "A ") &&
          (strContains line table && strEndsWith line ".sql"))

/-- `is_modified` from utils/git.py: the tightened variant matching
`/table.sql` as a substring (or the bare filename / a trailing
`space table.sql` on status lines).  git.py inlines the same
last-`__`-segment table derivation as `_infer_table_parts`. -/
def gitIsModified (modelName : String) (diff statusR : SubprocResult) : Bool :=
  let table := (inferTableParts modelName).2
  match diff with
  | SubprocResult.fail => false
  | SubprocResult.ok rc lines =>
    if rc == 0 && lines.any (fun fp =>
        (strContains fp ("/" ++ table ++ ".sql") || fp == table ++ ".sql")
        && strEndsWith fp ".sql") then
      true
    else
      match statusR with
      | SubprocResult.fail => false
      | SubprocResult.ok rc2 lines2 =>
        rc2 == 0 && lines2.any (fun line =>
          (strStartsWith line "??" || strStartsWith line "A ") &&
          ((strContains line ("/" ++ table ++ ".sql")
            || strEndsWith line (" " ++ table ++ ".sql"))
           && strContains line ".sql"))

/-! ## Manifest/git mismatch warnings (commands.py lines 91-147 and
utils/git.py lines 205-328)

The `is_modified` subprocess probe enters as the boolean `modified`; manifest
parsers enter as optional node lists (present iff the parser object was
supplied and parsed).  Warning message texts follow the source (apostrophes
around the model name are omitted).
-/

def devWithoutChangesWarning (name : String) : Warning :=
  { type := "dev_without_changes", severity := "warning"
    message := "Model " ++ name ++ " NOT modified in git, but using --dev flag"
    detail := "Dev table may not exist or may be outdated"
    suggestion := some "Remove --dev flag to query production table"
    source := none }

def gitMismatchWarning (name : String) : Warning :=
  { type := "git_mismatch", severity := "warning"
    message := "Model " ++ name ++ " IS modified in git"
    detail := "Querying production table, but local changes exist"
    suggestion := some "Use --dev flag to query dev table"
    source := none }

def devManifestMissingWarning (name : String) : Warning :=
  { type := "dev_manifest_missing", severity := "error"
    message := "Dev manifest (target/manifest.json) not found"
    detail := "Dev table cannot be queried without manifest"
    suggestion := some ("Run defer run --select " ++ name ++ " to build dev table")
    source := none }

def newModelCandidateWarning (name : String) : Warning :=
  { type := "new_model_candidate", severity := "warning"
    message := "Model " ++ name ++ " exists in dev manifest but NOT in production"
    detail := "This may be a new model or a defer-built model"
    suggestion := some "Use --dev flag to explicitly query dev table if this is a new model"
    source := none }

def fileNotCompiledWarning (name : String) : Warning :=
  { type := "file_not_compiled", severity := "error"
    message := "Model file detected in git but NOT in manifest"
    detail := "File exists but compilation likely failed"
    suggestion := some ("Run dbt compile --select " ++ name ++ " and check for errors.\nPossible causes: SQL syntax error, missing dependencies, disabled in dbt_project.yml")
    source := none }

/-- `_check_manifest_git_mismatch` (commands.py): case 1 and case 2 are an
if/elif pair on `(use_dev, modified)`; case 3 is independent. -/
def checkManifestGitMismatch (modelName : String) (useDev : Bool)
    (devManifestFound : Option String) (modified : Bool) : List Warning :=
  (if useDev && !modified then [devWithoutChangesWarning modelName]
   else if !useDev && modified then [gitMismatchWarning modelName]
   else [])
  ++ (if useDev && devManifestFound.isNone then [devManifestMissingWarning modelName]
      else [])

/-- `check_manifest_git_mismatch` (utils/git.py): as above, preceded by the
new-model / not-compiled detection block that runs only when both parsers are
supplied and `use_dev` is false (`file_not_compiled` returns early).  The
`use_dev and not in_dev` branch inside that block is unreachable because the
block requires `not use_dev`. -/
def gitCheckManifestGitMismatch (modelName : String) (useDev : Bool)
    (devManifestFound : Option String)
    (prodParser devParser : Option (List (String × MNode)))
    (modified : Bool) : List Warning :=
  let earlyBlock : List Warning × Bool :=
    match prodParser, devParser with
    | some pp, some dp =>
      if useDev then ([], false)
      else
        let inProd := (getModel pp modelName).isSome
        let inDev := (getModel dp modelName).isSome
        let w1 := if !inProd && inDev && modified then [newModelCandidateWarning modelName] else []
        if modified && !inProd && !inDev then (w1 ++ [fileNotCompiledWarning modelName], true)
        else (w1, false)
    | _, _ => ([], false)
  if earlyBlock.2 then earlyBlock.1
  else
    earlyBlock.1
    ++ (if useDev && !modified then [devWithoutChangesWarning modelName]
        else if !useDev && modified then [gitMismatchWarning modelName]
        else [])
    ++ (if useDev && devManifestFound.isNone then [devManifestMissingWarning modelName]
        else [])

/-! ## The columns command (commands.py lines 1112-1227, prod-first branch)

The bq subprocess boundary is modelled by two parameters: `bqVersionOk`
(whether the pre-flight `bq version` call succeeds) and `bqShowSchema`, which
maps the full table string passed to `bq show --schema --format=prettyjson`
to its parsed-JSON output (`none` covers a non-zero exit, a timeout, or
unparseable JSON — every case the source converts to `None`).
-/

/-- `_fetch_columns_from_bigquery` (commands.py lines 688-752): re-resolve
the model in the manifest at `manifest_path` (here: the production node
list), build `database:schema.table`, pre-flight check, fetch and lower-case
the column types. -/
def fetchColumnsFromBigqueryM (prodNodes : List (String × MNode))
    (bqVersionOk : Bool) (bqShowSchema : String → Option (List (String × String)))
    (modelName : String) : Option (List ColumnOut) :=
  match getModel prodNodes modelName with
  | none => none
  | some m =>
    let database := m.database
    let schemaName := m.schema
    let tableName := m.config.aliasOpt.getD m.name
    let fullTable := database ++ ":" ++ schemaName ++ "." ++ tableName
    if !bqVersionOk then none
    else
      match bqShowSchema fullTable with
      | none => none
      | some cols =>
        some (cols.map (fun c => { name := c.1, data_type := strToLower c.2 }))

/-- `_fetch_columns_from_bigquery_direct` (commands.py lines 629-686):
same fetch keyed by `dataset.table`, without a manifest lookup. -/
def fetchColumnsFromBigqueryDirectM (bqVersionOk : Bool)
    (bqShowSchema : String → Option (List (String × String)))
    (dataset table : String) : Option (List ColumnOut) :=
  let fullTable := dataset ++ "." ++ table
  if !bqVersionOk then none
  else
    match bqShowSchema fullTable with
    | none => none
    | some cols =>
      some (cols.map (fun c => { name := c.1, data_type := strToLower c.2 }))

/-- The post-lookup model processing of `columns` (commands.py lines
1212-1227): an empty columns map triggers the manifest-based BigQuery
fetch, otherwise the documented columns are returned with lower-cased
types (`col_data.get('data_type', 'string').lower()`). -/
def processModelColumns (prodNodes : List (String × MNode))
    (bqVersionOk : Bool) (bqShowSchema : String → Option (List (String × String)))
    (modelName : String) (m : MNode) : Option (List ColumnOut) :=
  if m.columns.isEmpty then
    fetchColumnsFromBigqueryM prodNodes bqVersionOk bqShowSchema modelName
  else
    some (m.columns.map (fun c => { name := c.1, data_type := strToLower (c.2.getD "string") }))

def devManifestFallbackWarningColumns (name : String) : Warning :=
  { type := "dev_manifest_fallback", severity := "warning"
    message := "Model " ++ name ++ " not found in production manifest"
    detail := "Using dev manifest (target/manifest.json) as fallback"
    suggestion := none, source := some "LEVEL 2" }

def bigqueryFallbackWarningColumns (name : String) : Warning :=
  { type := "bigquery_fallback", severity := "info"
    message := "Model " ++ name ++ " not in manifest"
    detail := "Fetching columns from BigQuery"
    suggestion := none, source := some "LEVEL 3" }

/-- The `columns` command, prod-first branch (`use_dev=False`, commands.py
lines 1165-1227).  `devManifest` is the parsed dev manifest when
`_find_dev_manifest` locates one.  The returned warning list collects what
the source prints: the git-mismatch warnings first, then the fallback-level
warnings. -/
def columnsCmd (prodNodes : List (String × MNode))
    (devManifest : Option (List (String × MNode)))
    (envFallbackTarget envFallbackBigquery : Option String)
    (bqVersionOk : Bool) (bqShowSchema : String → Option (List (String × String)))
    (modified : Bool) (modelName : String) :
    Option (List ColumnOut) × List Warning :=
  let gitWarnings := checkManifestGitMismatch modelName false none modified
  match getModel prodNodes modelName with
  | some m =>
    (processModelColumns prodNodes bqVersionOk bqShowSchema modelName m, gitWarnings)
  | none =>
    -- LEVEL 2 fallback: dev manifest (target/)
    let devModel : Option MNode :=
      if truthyEnv envFallbackTarget then
        match devManifest with
        | some devNodes => getModel devNodes modelName
        | none => none
      else none
    match devModel with
    | some m =>
      (processModelColumns prodNodes bqVersionOk bqShowSchema modelName m,
       gitWarnings ++ [devManifestFallbackWarningColumns modelName])
    | none =>
      -- LEVEL 3 fallback: BigQuery directly
      if truthyEnv envFallbackBigquery then
        match (inferTableParts modelName).1 with
        | some dataset =>
          (fetchColumnsFromBigqueryDirectM bqVersionOk bqShowSchema dataset
             (inferTableParts modelName).2,
           gitWarnings ++ [bigqueryFallbackWarningColumns modelName])
        | none => (none, gitWarnings)
      else (none, gitWarnings)

/-- Development-manifest node used by the C1 witness and the C6
counterexample: present only in the dev manifest, with no documented
columns (for C6) the columns map is empty. -/
def devOnlyNode : MNode :=
  { unique_id := "model.proj.new__feature", name := "new_feature"
    resource_type := "model", database := "", schema := "core"
    aliasOpt := none, original_file_path := "models/new_feature.sql"
    config := { aliasOpt := none }
    columns := [("id", some "INT64")] }

/-- An always-successful warehouse oracle. -/
def happyOracle : String → Option (List (String × String)) :=
  fun _ => some [("id", "INT64")]

/-- Dev-manifest node with an empty columns map, for the C6 counterexample. -/
def devOnlyEmptyColsNode : MNode :=
  { devOnlyNode with columns := [] }

/-- Production node with an empty columns map, for the C6 witness. -/
def prodEmptyColsNode : MNode :=
  { unique_id := "model.proj.core__events", name := "events"
    resource_type := "model", database := "db", schema := "core"
    aliasOpt := none, original_file_path := "models/core/events.sql"
    config := { aliasOpt := some "events_v2" }
    columns := [] }

/-! ## WarehouseGateway (utils/bigquery.py)

`run_bq_command` invocations are modelled as an attempt-indexed trace
`calls : Nat → BqCall`: `calls 0` is the outcome of the first subprocess
call the function makes, `calls 1` of the second, and so on.  `ok parsed`
is a zero-exit call whose stdout parses to `parsed` (`ok none` is output
that raises `JSONDecodeError`); the other constructors are the raised
exceptions.
-/

inductive BqCall where
  | ok (parsed : Option (List (String × String)))
  | procErr
  | timeoutErr
  | fnfErr
deriving DecidableEq, Repr

/-- `fetch_columns_from_bigquery_direct` (utils/bigquery.py lines 196-252):
one pre-flight `bq version` call (`calls 0`), then a single
`bq show --schema` call (`calls 1`).  Every caught exception and a
JSON-decode failure yield `None`.  There is no loop: `calls n` for `n ≥ 2`
is never consulted.  (A `FileNotFoundError` on the second call is not in
that `except` clause in the source, but cannot occur once the pre-flight
call has succeeded.) -/
def fetchColumnsFromBigqueryDirectU (calls : Nat → BqCall)
    (dataset table : String) : Option (List ColumnOut) :=
  let _fullTable := dataset ++ "." ++ table
  match calls 0 with
  | BqCall.procErr => none
  | BqCall.fnfErr => none
  | BqCall.timeoutErr => none
  | BqCall.ok _ =>
    match calls 1 with
    | BqCall.procErr => none
    | BqCall.timeoutErr => none
    | BqCall.fnfErr => none
    | BqCall.ok none => none
    | BqCall.ok (some cols) =>
      some (cols.map (fun c => { name := c.1, data_type := strToLower c.2 }))

/-- `fetch_table_metadata_from_bigquery` (utils/bigquery.py lines 106-146):
a single `bq show --format=json` call, no pre-flight and no retry; all four
exception kinds collapse to `None`.  The parsed metadata is left abstract. -/
def fetchTableMetadataFromBigqueryU (calls : Nat → BqCall)
    (dataset table : String) : Option (List (String × String)) :=
  let _fullTable := dataset ++ "." ++ table
  match calls 0 with
  | BqCall.procErr => none
  | BqCall.timeoutErr => none
  | BqCall.fnfErr => none
  | BqCall.ok none => none
  | BqCall.ok (some metadata) => some metadata

/-- The bq call trace of `tests/test_bigquery_retry.py`,
`test_success_on_second_attempt`: version check succeeds, the first fetch
attempt exits non-zero, a second attempt would return one column. -/
def retryTestTrace : Nat → BqCall :=
  fun n =>
    if n == 0 then BqCall.ok (some [])
    else if n == 1 then BqCall.procErr
    else BqCall.ok (some [("id", "INT64")])

/-! ## LineageWalker (commands.py lines 1832-1967 and 2096-2137)

`_build_relation_tree` in `json_mode=True` shape: tree nodes carry
`{path, table, type, level, children}`.  The mutable `visited` set shared
across the whole recursion is threaded through explicitly, and the Python
call stack is bounded by a fuel argument (`none` models a non-terminating
run; termination is proved separately as fuel sufficiency).
-/

inductive CompactTree where
  | mk (path table rtype : String) (level : Nat) (children : List CompactTree)

def CompactTree.children : CompactTree → List CompactTree
  | CompactTree.mk _ _ _ _ cs => cs

structure FlatEntry where
  path : String
  table : String
  rtype : String
  level : Nat
deriving DecidableEq, Repr

structure DirectEntry where
  path : String
  table : String
  rtype : String
deriving DecidableEq, Repr

/-- `f"{schema}.{alias}" if schema else alias` with
`alias = node.get('alias') or node.get('name', '')`. -/
def nodeTableStr (nd : MNode) : String :=
  let aliasName :=
    match nd.aliasOpt with
    | some a => if a == "" then nd.name else a
    | none => nd.name
  if nd.schema == "" then aliasName else nd.schema ++ "." ++ aliasName

/-- `original_file_path` with a leading `models/` prefix stripped. -/
def nodePathStr (nd : MNode) : String :=
  if strStartsWith nd.original_file_path "models/" then
    String.mk (nd.original_file_path.toList.drop 7)
  else nd.original_file_path

/-- One `node_info` entry of `_build_relation_tree` (json mode). -/
def mkCompactEntry (nd : MNode) (level : Nat) (children : List CompactTree) : CompactTree :=
  CompactTree.mk (nodePathStr nd) (nodeTableStr nd) nd.resource_type level children

/-- The body of the `for relation_id in relations` loop of
`_build_relation_tree`, with the recursive call abstracted as `recur`
(which already carries `level + 1`).  The accumulator holds the entries
built so far together with the current state of the shared `visited` set. -/
def buildStep (nodes sources : List (String × MNode))
    (recur : String → List String → Option (List CompactTree × List String))
    (level : Nat)
    (acc : Option (List CompactTree × List String)) (r : String) :
    Option (List CompactTree × List String) :=
  match acc with
  | none => none
  | some (entries, v) =>
    match (lookupAssoc nodes r).orElse (fun _ => lookupAssoc sources r) with
    | none => some (entries, v)
    | some nd =>
      if nd.resource_type == "test" then some (entries, v)
      else
        match recur r v with
        | none => none
        | some (children, v2) => some (entries ++ [mkCompactEntry nd level children], v2)

/-- `_build_relation_tree` (json mode), fuel-indexed.  A node already in
`visited` returns no entries (and is not expanded); otherwise it is added to
`visited` and its relations are processed left to right, the visited set
flowing from each child expansion into the next sibling (Python mutates one
shared set). -/
def buildRelationTreeAux (rmap : List (String × List String))
    (nodes sources : List (String × MNode)) :
    Nat → String → List String → Nat → Option (List CompactTree × List String)
  | 0, _, _, _ => none
  | fuel + 1, nodeId, visited, level =>
    if visited.contains nodeId then some ([], visited)
    else
      (lookupRels rmap nodeId).foldl
        (buildStep nodes sources
          (fun r v => buildRelationTreeAux rmap nodes sources fuel r v (level + 1))
          level)
        (some ([], nodeId :: visited))

/-- The direct (non-recursive) neighbour list of `parents`/`children`
(commands.py lines 2104-2131): compact `{path, table, type}` entries with
tests filtered out. -/
def parentsDirect (nodes sources : List (String × MNode)) : List String → List DirectEntry
  | [] => []
  | pid :: rest =>
    match (lookupAssoc nodes pid).orElse (fun _ => lookupAssoc sources pid) with
    | none => parentsDirect nodes sources rest
    | some nd =>
      if nd.resource_type == "test" then parentsDirect nodes sources rest
      else
        { path := nodePathStr nd, table := nodeTableStr nd, rtype := nd.resource_type }
          :: parentsDirect nodes sources rest

/-- `_count_tree_nodes`: the length of the top level plus the counts of all
non-empty children lists. -/
def countTreeNodes : List CompactTree → Nat
  | [] => 0
  | CompactTree.mk _ _ _ _ cs :: rest =>
    1 + (if cs.isEmpty then 0 else countTreeNodes cs) + countTreeNodes rest

/-- `_flatten_tree_to_compact`: pre-order flattening, each node (minus its
`children` field) immediately followed by its flattened descendants. -/
def flattenTreeToCompact : List CompactTree → List FlatEntry
  | [] => []
  | CompactTree.mk p t ty lv cs :: rest =>
    ({ path := p, table := t, rtype := ty, level := lv } : FlatEntry) ::
      ((if cs.isEmpty then [] else flattenTreeToCompact cs) ++ flattenTreeToCompact rest)

/-- Modelled from the spec (the specification side of the C5 refinement):
the multiset of `{node, level}` records obtained by walking the nested tree
output, children included unconditionally. -/
def specTreePairs : List CompactTree → Multiset FlatEntry
  | [] => 0
  | CompactTree.mk p t ty lv cs :: rest =>
    ({ path := p, table := t, rtype := ty, level := lv } : FlatEntry) ::ₘ
      (specTreePairs cs + specTreePairs rest)

/-- Keys of the adjacency map not yet visited: the termination measure of
the traversal. -/
def countKeysNotIn (rmap : List (String × List String)) (visited : List String) : Nat :=
  (rmap.map Prod.fst).countP (fun k => !(visited.contains k))

/-- The cyclic adjacency map of the claim: A -> [B], B -> [A]. -/
def cycleMap : List (String × List String) := [("A", ["B"]), ("B", ["A"])]

def cycleNodeA : MNode :=
  { unique_id := "A", name := "a", resource_type := "model"
    database := "", schema := "s", aliasOpt := none
    original_file_path := "models/a.sql", config := { aliasOpt := none }
    columns := [] }

def cycleNodeB : MNode :=
  { unique_id := "B", name := "b", resource_type := "model"
    database := "", schema := "s", aliasOpt := none
    original_file_path := "models/b.sql", config := { aliasOpt := none }
    columns := [] }

def cycleNodes : List (String × MNode) := [("A", cycleNodeA), ("B", cycleNodeB)]

/-- The tree actually produced by `transitive(A, PARENTS)` over the cycle:
B at level 0 with the root A re-included as its child at level 1 (with no
children of its own, since A is already in the visited set). -/
def cycleExpectedTree : List CompactTree :=
  [CompactTree.mk "b.sql" "s.b" "model" 0 [CompactTree.mk "a.sql" "s.a" "model" 1 []]]

/-! ## Theorems -/

/-- C3 counterexample: with `DBT_MANIFEST_PATH=/missing/manifest.json` set
but absent from disk, the finder does not fail on the explicit path: it
silently substitutes the lower-priority development default
`./target/manifest.json`, contradicting the claim that the locator either
returns the explicit path or fails because that path does not exist. -/
theorem c3_explicit_path_counterexample :
    manifestFinderFind c3Fs c3Parent "/proj" (some "/missing/manifest.json") none none
      = Except.ok "/proj/target/manifest.json"
    ∧ c3Fs "/missing/manifest.json" = false
    ∧ ("/proj/target/manifest.json" : String) ≠ "/missing/manifest.json" := by
  refine ⟨rfl, by decide, by decide⟩

/-- C3 (amended): the explicit `DBT_MANIFEST_PATH` override is honoured when
the file exists; when it is set but the file is missing, the locator silently
falls through and behaves exactly as if the override were unset (it does not
fail on the explicit path). -/
theorem c3_explicit_override_amended
    (fs : String → Bool) (parentFn : String → String) (cwd p : String)
    (esp epp : Option String) :
    (p ≠ "" → fs p = true →
      manifestFinderFind fs parentFn cwd (some p) esp epp = Except.ok p)
    ∧ (fs p = false →
      manifestFinderFind fs parentFn cwd (some p) esp epp
        = manifestFinderFind fs parentFn cwd none esp epp) := by
  constructor
  · intro h1 h2
    simp [manifestFinderFind, h1, h2]
  · intro h
    by_cases hp : p = ""
    · subst hp; simp [manifestFinderFind]
    · simp [manifestFinderFind, h, hp]

/-- Witness for C3 (amended): concrete instantiation of the first conjunct. -/
theorem c3_explicit_override_amended_witness :
    manifestFinderFind c3Fs c3Parent "/proj" (some "/proj/target/manifest.json") none none
      = Except.ok "/proj/target/manifest.json" :=
  (c3_explicit_override_amended c3Fs c3Parent "/proj" "/proj/target/manifest.json"
    none none).1 (by decide) (by decide)

/-- C8 counterexample: the claim says `is_modified` matches only reported
paths that end with `/name.sql` or equal `name.sql`.  The commands.py
implementation uses a substring test: for model `core__events` (derived name
`events`) a diff entry `models/user_events.sql` matches, although it neither
ends with `/events.sql` nor equals `events.sql`. -/
theorem c8_is_modified_counterexample :
    commandsIsModified "core__events"
      (SubprocResult.ok 0 ["models/user_events.sql"]) (SubprocResult.ok 0 []) = true
    ∧ strEndsWith "models/user_events.sql" "/events.sql" = false
    ∧ ("models/user_events.sql" : String) ≠ "events.sql" := by
  refine ⟨by decide, by decide, by decide⟩

/-- C8 (amended): a positive `is_modified` answer always comes from a
version-control-reported `.sql` line containing the derived name — as a
substring for the commands.py variant, and as `/name.sql` substring, exact
`name.sql`, or trailing `space name.sql` for the utils/git.py variant — and
any VCS failure yields `False`. -/
theorem c8_is_modified_amended (name : String) (diff st : SubprocResult) :
    (commandsIsModified name diff st = true →
      ∃ l ∈ subprocLines diff ++ subprocLines st,
        strContains l (inferTableParts name).2 = true)
    ∧ (gitIsModified name diff st = true →
      ∃ l ∈ subprocLines diff ++ subprocLines st,
        strContains l ("/" ++ (inferTableParts name).2 ++ ".sql") = true
        ∨ l = (inferTableParts name).2 ++ ".sql"
        ∨ strEndsWith l (" " ++ (inferTableParts name).2 ++ ".sql") = true)
    ∧ commandsIsModified name SubprocResult.fail st = false
    ∧ gitIsModified name SubprocResult.fail st = false := by
  refine ⟨?_, ?_, rfl, rfl⟩
  · intro h
    cases diff with
    | fail => simp [commandsIsModified] at h
    | ok rc lines =>
      simp only [commandsIsModified] at h
      split at h
      · rename_i hcond
        simp only [Bool.and_eq_true, List.any_eq_true] at hcond
        obtain ⟨-, l, hl, hc, -⟩ := hcond
        exact ⟨l, by simp [subprocLines, hl], hc⟩
      · cases st with
        | fail => simp at h
        | ok rc2 lines2 =>
          simp only [Bool.and_eq_true, List.any_eq_true] at h
          obtain ⟨-, l, hl, -, hc, -⟩ := h
          exact ⟨l, by simp [subprocLines, hl], hc⟩
  · intro h
    cases diff with
    | fail => simp [gitIsModified] at h
    | ok rc lines =>
      simp only [gitIsModified] at h
      split at h
      · rename_i hcond
        simp only [Bool.and_eq_true, List.any_eq_true, Bool.or_eq_true] at hcond
        obtain ⟨-, l, hl, hc, -⟩ := hcond
        refine ⟨l, by simp [subprocLines, hl], ?_⟩
        rcases hc with hc | hc
        · exact Or.inl hc
        · exact Or.inr (Or.inl (by simpa using hc))
      · cases st with
        | fail => simp at h
        | ok rc2 lines2 =>
          simp only [Bool.and_eq_true, List.any_eq_true, Bool.or_eq_true] at h
          obtain ⟨-, l, hl, -, hc, -⟩ := h
          refine ⟨l, by simp [subprocLines, hl], ?_⟩
          rcases hc with hc | hc
          · exact Or.inl hc
          · exact Or.inr (Or.inr hc)

/-- Witness for C8 (amended): the first conjunct applied at the
counterexample input. -/
theorem c8_is_modified_amended_witness :
    ∃ l ∈ subprocLines (SubprocResult.ok 0 ["models/user_events.sql"])
        ++ subprocLines (SubprocResult.ok 0 ([] : List String)),
      strContains l (inferTableParts "core__events").2 = true :=
  (c8_is_modified_amended "core__events"
    (SubprocResult.ok 0 ["models/user_events.sql"]) (SubprocResult.ok 0 [])).1
    (by decide)

/-- C9: in both implementations of the change-detection check, a single
warning list never contains both a `dev_without_changes` and a `git_mismatch`
warning: the former requires `use_dev` and the latter requires `not use_dev`,
so they are mutually exclusive in any response. -/
theorem c9_warning_mutual_exclusivity (name : String) (useDev : Bool)
    (devFound : Option String) (prodP devP : Option (List (String × MNode)))
    (modified : Bool) :
    (((checkManifestGitMismatch name useDev devFound modified).any
        (fun w => w.type == "dev_without_changes"))
      && ((checkManifestGitMismatch name useDev devFound modified).any
        (fun w => w.type == "git_mismatch"))) = false
    ∧ (((gitCheckManifestGitMismatch name useDev devFound prodP devP modified).any
        (fun w => w.type == "dev_without_changes"))
      && ((gitCheckManifestGitMismatch name useDev devFound prodP devP modified).any
        (fun w => w.type == "git_mismatch"))) = false := by
  constructor
  · cases useDev <;> cases modified <;>
      simp [checkManifestGitMismatch, devWithoutChangesWarning, gitMismatchWarning,
        devManifestMissingWarning]
  · cases useDev <;> cases modified <;>
      cases prodP <;> cases devP <;>
      simp only [gitCheckManifestGitMismatch] <;>
      split_ifs <;>
      simp_all [devManifestMissingWarning, newModelCandidateWarning,
        fileNotCompiledWarning, devWithoutChangesWarning, gitMismatchWarning]

/-- C1: for a model absent from the production manifest but present in the
development manifest, the prod-first `columns` lookup returns the
development-manifest result (the standard model processing applied to the
dev node) together with the `dev_manifest_fallback` warning of severity
`warning` and source `LEVEL 2`; with the development level disabled it falls
through to the warehouse level when that is enabled and the name splits on
`__`, and to an absent (`none`) result otherwise. -/
theorem c1_prod_first_fallback_ordering
    (prodNodes devNodes : List (String × MNode))
    (envT envB : Option String) (vOk : Bool)
    (oracle : String → Option (List (String × String)))
    (modified : Bool) (name : String) (m : MNode)
    (hprod : getModel prodNodes name = none)
    (hdev : getModel devNodes name = some m) :
    (truthyEnv envT = true →
      columnsCmd prodNodes (some devNodes) envT envB vOk oracle modified name
        = (processModelColumns prodNodes vOk oracle name m,
           checkManifestGitMismatch name false none modified
             ++ [devManifestFallbackWarningColumns name]))
    ∧ (truthyEnv envT = false →
      columnsCmd prodNodes (some devNodes) envT envB vOk oracle modified name
        = (if truthyEnv envB then
            match (inferTableParts name).1 with
            | some dataset =>
              (fetchColumnsFromBigqueryDirectM vOk oracle dataset (inferTableParts name).2,
               checkManifestGitMismatch name false none modified
                 ++ [bigqueryFallbackWarningColumns name])
            | none => (none, checkManifestGitMismatch name false none modified)
          else (none, checkManifestGitMismatch name false none modified)))
    ∧ (devManifestFallbackWarningColumns name).type = "dev_manifest_fallback"
    ∧ (devManifestFallbackWarningColumns name).severity = "warning"
    ∧ (devManifestFallbackWarningColumns name).source = some "LEVEL 2" := by
  refine ⟨?_, ?_, rfl, rfl, rfl⟩
  · intro h
    simp [columnsCmd, hprod, hdev, h]
  · intro h
    simp [columnsCmd, hprod, h]

/-- Witness for C1: concrete instantiation of the first conjunct. -/
theorem c1_prod_first_fallback_ordering_witness :
    columnsCmd [] (some [("model.proj.new__feature", devOnlyNode)]) none none
        true happyOracle false "new__feature"
      = (processModelColumns [] true happyOracle "new__feature" devOnlyNode,
         checkManifestGitMismatch "new__feature" false none false
           ++ [devManifestFallbackWarningColumns "new__feature"]) :=
  (c1_prod_first_fallback_ordering [] [("model.proj.new__feature", devOnlyNode)]
    none none true happyOracle false "new__feature" devOnlyNode
    (by decide) (by decide)).1 (by decide)

/-- C6 counterexample: a model found in the development manifest (via the
LEVEL 2 fallback) whose columns map is empty yields `none` even though every
warehouse fetch succeeds — `_fetch_columns_from_bigquery` re-resolves the
model against the production manifest, finds nothing there, and returns
`None` without calling bq.  This refutes the claim that the `None` result is
produced only when the warehouse fetch itself fails. -/
theorem c6_empty_columns_counterexample :
    (columnsCmd [] (some [("model.proj.new__feature", devOnlyEmptyColsNode)])
        none none true happyOracle false "new__feature").1 = none
    ∧ fetchColumnsFromBigqueryDirectM true happyOracle "core" "new_feature"
        = some [{ name := "id", data_type := "int64" }] := by
  refine ⟨by decide, by decide⟩

/-- C6 (amended): for a model found in the **production** manifest with an
empty columns map, the `columns` command consults the warehouse through
`_fetch_columns_from_bigquery` (keyed by the model's
`database:schema.table`), and the result is `none` exactly when that fetch
fails; a model found only via the dev-manifest fallback with empty columns
instead re-resolves against the production manifest and yields `none`
without a warehouse call. -/
theorem c6_empty_columns_amended
    (prodNodes : List (String × MNode)) (dev : Option (List (String × MNode)))
    (envT envB : Option String) (vOk : Bool)
    (oracle : String → Option (List (String × String)))
    (modified : Bool) (name : String) (m : MNode)
    (hm : getModel prodNodes name = some m)
    (hempty : m.columns = []) :
    (columnsCmd prodNodes dev envT envB vOk oracle modified name).1
      = fetchColumnsFromBigqueryM prodNodes vOk oracle name
    ∧ (vOk = true →
      (columnsCmd prodNodes dev envT envB vOk oracle modified name).1
        = (oracle (m.database ++ ":" ++ m.schema ++ "." ++ m.config.aliasOpt.getD m.name)).map
            (fun cols => cols.map (fun c => { name := c.1, data_type := strToLower c.2 }))) := by
  constructor
  · simp [columnsCmd, hm, processModelColumns, hempty]
  · intro hv
    subst hv
    simp only [columnsCmd, hm, processModelColumns, hempty, List.isEmpty_nil, if_true]
    simp only [fetchColumnsFromBigqueryM, hm, Bool.not_true]
    cases oracle (m.database ++ ":" ++ m.schema ++ "." ++ m.config.aliasOpt.getD m.name) <;>
      simp

/-- Witness for C6 (amended): concrete instantiation of the second
conjunct — the empty-columns production model is served by the warehouse
oracle. -/
theorem c6_empty_columns_amended_witness :
    (columnsCmd [("model.proj.core__events", prodEmptyColsNode)] none none none
        true happyOracle false "core__events").1
      = (happyOracle ("db" ++ ":" ++ "core" ++ "." ++ "events_v2")).map
          (fun cols => cols.map (fun c => { name := c.1, data_type := strToLower c.2 })) :=
  (c6_empty_columns_amended [("model.proj.core__events", prodEmptyColsNode)] none
    none none true happyOracle false "core__events" prodEmptyColsNode
    (by decide) (by decide)).2 rfl

/-- C4: the warehouse fetchers perform exactly one fetch attempt.  On the
trace of the repository's own retry test (version OK, first fetch fails
transiently, every later attempt would succeed) the column fetch returns
`None` instead of retrying, and the same trace starting at the metadata
fetch also returns `None` — the later successful outcomes are never
consulted. -/
theorem c4_no_retry_single_attempt :
    fetchColumnsFromBigqueryDirectU retryTestTrace "test_schema" "test_table" = none
    ∧ fetchTableMetadataFromBigqueryU (fun n => retryTestTrace (n + 1)) "core" "events" = none
    ∧ retryTestTrace 2 = BqCall.ok (some [("id", "INT64")]) := by
  refine ⟨rfl, rfl, rfl⟩

/-- Flattening distributes over list append. -/
theorem flattenTree_append :
    (l1 l2 : List CompactTree) →
      flattenTreeToCompact (l1 ++ l2) = flattenTreeToCompact l1 ++ flattenTreeToCompact l2
  | [], l2 => by simp [flattenTreeToCompact]
  | CompactTree.mk p t ty lv cs :: rest, l2 => by
    simp [flattenTreeToCompact, flattenTree_append rest l2]

/-- C10: the flattened output and the tree-node counter always agree:
`len(_flatten_tree_to_compact(tree)) == _count_tree_nodes(tree)`, so the
over-20-nodes flattening decision and the flattened output count the same
set of nodes. -/
theorem c10_flatten_length_eq_count :
    (t : List CompactTree) → (flattenTreeToCompact t).length = countTreeNodes t
  | [] => by simp [flattenTreeToCompact, countTreeNodes]
  | CompactTree.mk p tb ty lv cs :: rest => by
    have h2 := c10_flatten_length_eq_count rest
    by_cases hcs : cs.isEmpty
    · simp [flattenTreeToCompact, countTreeNodes, hcs, h2]
      omega
    · have h1 := c10_flatten_length_eq_count cs
      simp [flattenTreeToCompact, countTreeNodes, hcs, h1, h2]
      omega

/-- C5: the multiset of `{node, level}` records of the flattened (compact)
lineage output equals the multiset obtained by walking the nested tree:
flattening is a pure pre-order reshaping that only drops the `children`
nesting. -/
theorem c5_tree_flat_equivalence :
    (t : List CompactTree) →
      ((flattenTreeToCompact t : List FlatEntry) : Multiset FlatEntry) = specTreePairs t
  | [] => by simp [flattenTreeToCompact, specTreePairs]
  | CompactTree.mk p tb ty lv cs :: rest => by
    have h2 := c5_tree_flat_equivalence rest
    by_cases hcs : cs.isEmpty
    · have hnil : cs = [] := List.isEmpty_iff.mp hcs
      subst hnil
      simp [flattenTreeToCompact, specTreePairs, ← h2]
    · have h1 := c5_tree_flat_equivalence cs
      simp [flattenTreeToCompact, specTreePairs, hcs, ← h1, ← h2, ← Multiset.coe_add,
        ← Multiset.cons_coe]

/-- A successful association lookup means the key occurs among the keys. -/
theorem lookupAssoc_some_mem {α : Type} {l : List (String × α)} {k : String} {x : α}
    (h : lookupAssoc l k = some x) : k ∈ l.map Prod.fst := by
  unfold lookupAssoc at h
  cases hf : l.find? (fun p => p.1 == k) with
  | none => rw [hf] at h; simp at h
  | some p =>
    have hmem := List.mem_of_find?_eq_some hf
    have hpred := List.find?_some hf
    have hk : p.1 = k := by simpa using hpred
    exact List.mem_map.mpr ⟨p, hmem, hk⟩

/-- A strict `countP` decrease witnessed by one element flipping from the
larger predicate to the smaller. -/
theorem countP_lt_of_flip {α : Type} {p q : α → Bool} :
    ∀ (l : List α) (a : α), a ∈ l → (∀ x, p x = true → q x = true) →
      p a = false → q a = true → l.countP p < l.countP q
  | [], a, ha, _, _, _ => by cases ha
  | b :: bs, a, ha, hpq, hpa, hqa => by
    rcases List.mem_cons.mp ha with rfl | hmem
    · have hle : bs.countP p ≤ bs.countP q :=
        List.countP_mono_left (fun x _ hx => hpq x hx)
      simp [List.countP_cons, hpa, hqa]
      omega
    · have hlt := countP_lt_of_flip bs a hmem hpq hpa hqa
      have hhead : (if p b then 1 else 0) ≤ (if q b then 1 else 0) := by
        by_cases hb : p b = true
        · simp [hb, hpq b hb]
        · simp [Bool.not_eq_true] at hb
          simp [hb]
      simp only [List.countP_cons]
      omega

/-- Growing the visited set cannot increase the unvisited-key count. -/
theorem countKeysNotIn_mono (rmap : List (String × List String))
    {v v' : List String} (h : v ⊆ v') :
    countKeysNotIn rmap v' ≤ countKeysNotIn rmap v := by
  apply List.countP_mono_left
  intro a _ ha
  simp only [Bool.not_eq_eq_eq_not, Bool.not_true, Bool.not_eq_true'] at *
  by_cases hv : a ∈ v
  · have : a ∈ v' := h hv
    simp [this] at ha
  · simpa using hv

/-- Visiting a key of the adjacency map strictly decreases the measure. -/
theorem countKeysNotIn_cons_lt (rmap : List (String × List String))
    {id : String} {v : List String}
    (hmem : id ∈ rmap.map Prod.fst) (hnv : ¬ id ∈ v) :
    countKeysNotIn rmap (id :: v) < countKeysNotIn rmap v := by
  apply countP_lt_of_flip _ id hmem
  · intro x hx
    simp only [Bool.not_eq_eq_eq_not, Bool.not_true, Bool.not_eq_true'] at *
    by_cases hxv : x ∈ v
    · simp [hxv, List.mem_cons] at hx
    · simpa using hxv
  · simp
  · simpa using hnv

/-- A dead accumulator stays dead through the relation loop. -/
theorem foldl_buildStep_none (nodes sources : List (String × MNode))
    (recur : String → List String → Option (List CompactTree × List String))
    (level : Nat) :
    ∀ rels : List String,
      List.foldl (buildStep nodes sources recur level) none rels = none := by
  intro rels
  induction rels with
  | nil => rfl
  | cons r rest ih => simpa [List.foldl, buildStep] using ih

/-- The visited set only grows across the relation loop, provided the
recursive expansion only grows it. -/
theorem foldl_buildStep_mono (nodes sources : List (String × MNode))
    (recur : String → List String → Option (List CompactTree × List String))
    (level : Nat)
    (hrec : ∀ r v es v', recur r v = some (es, v') → v ⊆ v') :
    ∀ (rels : List String) (es0 : List CompactTree) (v0 : List String) es v',
      List.foldl (buildStep nodes sources recur level) (some (es0, v0)) rels
        = some (es, v') → v0 ⊆ v' := by
  intro rels
  induction rels with
  | nil =>
    intro es0 v0 es v' h
    simp only [List.foldl] at h
    obtain ⟨-, rfl⟩ : es0 = es ∧ v0 = v' := by simpa using h
    exact List.Subset.refl _
  | cons r rest ih =>
    intro es0 v0 es v' h
    simp only [List.foldl] at h
    cases hl : (lookupAssoc nodes r).orElse (fun _ => lookupAssoc sources r) with
    | none =>
      simp only [buildStep, hl] at h
      exact ih es0 v0 es v' h
    | some nd =>
      by_cases ht : (nd.resource_type == "test") = true
      · simp only [buildStep, hl, ht, if_true] at h
        exact ih es0 v0 es v' h
      · simp only [buildStep, hl, ht, if_false, Bool.false_eq_true] at h
        cases hr : recur r v0 with
        | none =>
          rw [hr] at h
          rw [foldl_buildStep_none] at h
          cases h
        | some p =>
          obtain ⟨ch, v2⟩ := p
          rw [hr] at h
          have h1 := hrec r v0 ch v2 hr
          have h2 := ih _ v2 es v' h
          exact h1.trans h2

/-- Fuel sufficiency for the relation loop: if the recursive expansion
succeeds from every state satisfying `C` and preserves `C` through its
visited growth, the loop succeeds from a `C`-state. -/
theorem foldl_buildStep_isSome (nodes sources : List (String × MNode))
    (recur : String → List String → Option (List CompactTree × List String))
    (level : Nat) (C : List String → Prop)
    (hrecSome : ∀ r v, C v → (recur r v).isSome = true)
    (hrecMono : ∀ r v es v', recur r v = some (es, v') → v ⊆ v')
    (hCanti : ∀ v v', v ⊆ v' → C v → C v') :
    ∀ (rels : List String) (es0 : List CompactTree) (v0 : List String), C v0 →
      (List.foldl (buildStep nodes sources recur level) (some (es0, v0)) rels).isSome
        = true := by
  intro rels
  induction rels with
  | nil => intro es0 v0 _; simp [List.foldl]
  | cons r rest ih =>
    intro es0 v0 hC
    simp only [List.foldl]
    cases hl : (lookupAssoc nodes r).orElse (fun _ => lookupAssoc sources r) with
    | none =>
      simp only [buildStep, hl]
      exact ih es0 v0 hC
    | some nd =>
      by_cases ht : (nd.resource_type == "test") = true
      · simp only [buildStep, hl, ht, if_true]
        exact ih es0 v0 hC
      · have hsome := hrecSome r v0 hC
        cases hr : recur r v0 with
        | none => rw [hr] at hsome; cases hsome
        | some p =>
          obtain ⟨ch, v2⟩ := p
          simp only [buildStep, hl, ht, if_false, Bool.false_eq_true, hr]
          exact ih _ v2 (hCanti v0 v2 (hrecMono r v0 ch v2 hr) hC)

/-- The traversal only ever adds to the visited set. -/
theorem buildRelationTreeAux_mono (rmap : List (String × List String))
    (nodes sources : List (String × MNode)) :
    ∀ (fuel : Nat) (id : String) (v : List String) (lvl : Nat) es v',
      buildRelationTreeAux rmap nodes sources fuel id v lvl = some (es, v') →
      v ⊆ v' := by
  intro fuel
  induction fuel with
  | zero => intro id v lvl es v' h; simp [buildRelationTreeAux] at h
  | succ f ih =>
    intro id v lvl es v' h
    simp only [buildRelationTreeAux] at h
    by_cases hc : v.contains id = true
    · rw [if_pos hc] at h
      obtain ⟨-, rfl⟩ : ([] : List CompactTree) = es ∧ v = v' := by simpa using h
      exact List.Subset.refl _
    · rw [if_neg hc] at h
      have hsub := foldl_buildStep_mono nodes sources _ _
        (fun r vv es2 v2 hr => ih r vv (lvl + 1) es2 v2 hr) _ _ _ _ _ h
      exact fun a ha => hsub (List.mem_cons_of_mem _ ha)

/-- Fuel sufficiency: any fuel exceeding the number of unvisited adjacency
keys makes the traversal terminate with a result (this is the Lean image of
the Python termination argument: each expansion permanently consumes one
unvisited key, or reads an id with no adjacency entry and recurses no
further). -/
theorem buildRelationTreeAux_isSome (rmap : List (String × List String))
    (nodes sources : List (String × MNode)) :
    ∀ (fuel : Nat) (id : String) (v : List String) (lvl : Nat),
      countKeysNotIn rmap v < fuel →
      (buildRelationTreeAux rmap nodes sources fuel id v lvl).isSome = true := by
  intro fuel
  induction fuel with
  | zero => intro id v lvl h; exact absurd h (Nat.not_lt_zero _)
  | succ f ih =>
    intro id v lvl h
    simp only [buildRelationTreeAux]
    by_cases hc : v.contains id = true
    · rw [if_pos hc]; rfl
    · rw [if_neg hc]
      cases hra : lookupAssoc rmap id with
      | none => simp [lookupRels, hra, List.foldl]
      | some rels =>
        have hmem : id ∈ rmap.map Prod.fst := lookupAssoc_some_mem hra
        have hnv : ¬ id ∈ v := by
          intro hin
          exact hc (by simpa using hin)
        have hlt : countKeysNotIn rmap (id :: v) < f := by
          have := countKeysNotIn_cons_lt rmap hmem hnv
          omega
        exact foldl_buildStep_isSome nodes sources _ lvl
          (fun vv => countKeysNotIn rmap vv < f)
          (fun r vv hcv => ih r vv (lvl + 1) hcv)
          (fun r vv es2 v2 hr =>
            buildRelationTreeAux_mono rmap nodes sources f r vv (lvl + 1) es2 v2 hr)
          (fun vv vv' hsub hcv => lt_of_le_of_lt (countKeysNotIn_mono rmap hsub) hcv)
          (lookupRels rmap id) [] (id :: v) hlt

/-- C2 counterexample: over `parent_map = A:[B], B:[A]` the recursive
traversal does *not* return `[B]` only: the root A re-appears as a leaf
child of B (the visited set prevents re-expansion, not re-listing), so the
flattened node list is `[s.b, s.a]`, not `[s.b]`. -/
theorem c2_cycle_counterexample :
    buildRelationTreeAux cycleMap cycleNodes [] 3 "A" [] 0
      = some (cycleExpectedTree, ["B", "A"])
    ∧ (flattenTreeToCompact cycleExpectedTree).map (fun e => e.table) = ["s.b", "s.a"]
    ∧ (["s.b", "s.a"] : List String) ≠ ["s.b"] := by
  refine ⟨rfl, by simp [cycleExpectedTree, flattenTreeToCompact], by decide⟩

/-- C2 (amended): the traversal always terminates — any fuel exceeding the
number of unvisited adjacency keys yields a result — and on the cyclic map
`A:[B], B:[A]` the transitive parents of A are B (level 0) with the root A
re-included as a leaf child of B (level 1, empty children, not re-expanded
thanks to the shared visited set). -/
theorem c2_cycle_amended :
    (∀ (rmap : List (String × List String)) (nodes sources : List (String × MNode))
        (fuel : Nat) (id : String) (v : List String) (lvl : Nat),
      countKeysNotIn rmap v < fuel →
      (buildRelationTreeAux rmap nodes sources fuel id v lvl).isSome = true)
    ∧ buildRelationTreeAux cycleMap cycleNodes [] 3 "A" [] 0
        = some (cycleExpectedTree, ["B", "A"]) :=
  ⟨fun rmap nodes sources => buildRelationTreeAux_isSome rmap nodes sources, rfl⟩

/-- Witness for C2 (amended): termination instantiated on the cyclic map
(2 unvisited keys, fuel 3). -/
theorem c2_cycle_amended_witness :
    (buildRelationTreeAux cycleMap cycleNodes [] 3 "A" [] 0).isSome = true :=
  c2_cycle_amended.1 cycleMap cycleNodes [] 3 "A" [] 0 (by decide)

/-- The loop preserves test-freeness of the accumulated entries, provided
every recursive expansion is test-free. -/
theorem foldl_buildStep_no_test (nodes sources : List (String × MNode))
    (recur : String → List String → Option (List CompactTree × List String))
    (level : Nat)
    (hrec : ∀ r v t v', recur r v = some (t, v') →
      (flattenTreeToCompact t).all (fun e => !(e.rtype == "test")) = true) :
    ∀ (rels : List String) (es0 : List CompactTree) (v0 : List String) es v',
      (flattenTreeToCompact es0).all (fun e => !(e.rtype == "test")) = true →
      List.foldl (buildStep nodes sources recur level) (some (es0, v0)) rels
        = some (es, v') →
      (flattenTreeToCompact es).all (fun e => !(e.rtype == "test")) = true := by
  intro rels
  induction rels with
  | nil =>
    intro es0 v0 es v' h0 h
    obtain ⟨rfl, -⟩ : es0 = es ∧ v0 = v' := by simpa using h
    exact h0
  | cons r rest ih =>
    intro es0 v0 es v' h0 h
    simp only [List.foldl] at h
    cases hl : (lookupAssoc nodes r).orElse (fun _ => lookupAssoc sources r) with
    | none =>
      simp only [buildStep, hl] at h
      exact ih es0 v0 es v' h0 h
    | some nd =>
      by_cases ht : (nd.resource_type == "test") = true
      · simp only [buildStep, hl, ht, if_true] at h
        exact ih es0 v0 es v' h0 h
      · simp only [buildStep, hl, ht, if_false, Bool.false_eq_true] at h
        cases hr : recur r v0 with
        | none =>
          rw [hr] at h
          rw [foldl_buildStep_none] at h
          cases h
        | some p =>
          obtain ⟨ch, v2⟩ := p
          rw [hr] at h
          have hch := hrec r v0 ch v2 hr
          have h0' : (flattenTreeToCompact (es0 ++ [mkCompactEntry nd level ch])).all
              (fun e => !(e.rtype == "test")) = true := by
            rw [flattenTree_append]
            simp only [List.all_append, Bool.and_eq_true]
            refine ⟨h0, ?_⟩
            simp only [flattenTreeToCompact, mkCompactEntry, List.all_cons,
              List.all_append, List.all_nil, Bool.and_eq_true, List.append_nil]
            refine ⟨by simpa using ht, ?_⟩
            by_cases hch0 : ch.isEmpty = true
            · simp [hch0]
            · simp only [hch0, if_false, Bool.false_eq_true]
              exact hch
          exact ih _ v2 es v' h0' h

/-- C7: lineage results never contain a test node.  Every entry of any
recursive tree (at any fuel, direction map, or depth) and every entry of the
direct neighbour list has `resource_type` different from `test`. -/
theorem c7_lineage_filters_tests (rmap : List (String × List String))
    (nodes sources : List (String × MNode)) :
    (∀ (fuel : Nat) (id : String) (v : List String) (lvl : Nat) t v',
      buildRelationTreeAux rmap nodes sources fuel id v lvl = some (t, v') →
      (flattenTreeToCompact t).all (fun e => !(e.rtype == "test")) = true)
    ∧ (∀ ids : List String,
      (parentsDirect nodes sources ids).all (fun e => !(e.rtype == "test")) = true) := by
  constructor
  · intro fuel
    induction fuel with
    | zero => intro id v lvl t v' h; simp [buildRelationTreeAux] at h
    | succ f ih =>
      intro id v lvl t v' h
      simp only [buildRelationTreeAux] at h
      by_cases hc : v.contains id = true
      · rw [if_pos hc] at h
        obtain ⟨rfl, -⟩ : ([] : List CompactTree) = t ∧ v = v' := by simpa using h
        simp [flattenTreeToCompact]
      · rw [if_neg hc] at h
        exact foldl_buildStep_no_test nodes sources _ _
          (fun r vv t2 v2 hr => ih r vv (lvl + 1) t2 v2 hr) _ _ _ _ _
          (by simp [flattenTreeToCompact]) h
  · intro ids
    induction ids with
    | nil => simp [parentsDirect]
    | cons pid rest ih =>
      simp only [parentsDirect]
      cases hl : (lookupAssoc nodes pid).orElse (fun _ => lookupAssoc sources pid) with
      | none => exact ih
      | some nd =>
        by_cases ht : (nd.resource_type == "test") = true
        · simp only [ht, if_true]
          exact ih
        · simp only [ht, if_false, Bool.false_eq_true, List.all_cons, Bool.and_eq_true]
          exact ⟨by simp [ht], ih⟩

/-- Witness for C7: the conclusion at the concrete cyclic-map tree. -/
theorem c7_lineage_filters_tests_witness :
    (flattenTreeToCompact cycleExpectedTree).all (fun e => !(e.rtype == "test")) = true :=
  (c7_lineage_filters_tests cycleMap cycleNodes []).1 3 "A" [] 0
    cycleExpectedTree ["B", "A"] rfl

end DbtMeta
